import Mathlib

/-!
Shallow embedding of the 1-D FDTD (Yee) solver from `src/fdtd.py`
(repository Alpha0081/FDTD), together with proofs about its
configuration validation, registration operations and time stepping.

Python floats are modelled as exact rationals (`ℚ`) for scalars and
material arrays, and as reals (`ℝ`) for the field arrays `E` and `H`,
whose source injection involves a square root.  NumPy arrays are
modelled as total functions `ℕ → α` together with the allocated
length kept in the engine state; NumPy single-element indexing
(negative-index wrap) and slice assignment (index clamping) are
modelled by `npNorm`, `npGet`, `npSet`, `sliceIdx` and
`setSliceConst`.  Out-of-range single-element indexing, which raises
`IndexError` in NumPy, is not modelled: the spec (section 7) places
position validation on the caller.  The GUI, progress bar and timer
collaborators are outside the core and are not modelled.
-/

namespace FDTDModel

/-- Modelled from the spec: the `constants` module is not under `src/`.
`c` is the speed of light constant used to derive the time step. -/
def c : ℚ := 299792458

/-- Modelled from the spec: the `constants` module is not under `src/`.
`W_0` is the vacuum wave impedance. -/
noncomputable def W_0 : ℝ := 120 * Real.pi

/-- Python `int()` applied to a float: truncation toward zero. -/
def pyTrunc (q : ℚ) : ℤ := if q < 0 then ⌈q⌉ else ⌊q⌋

/-- NumPy single-element index normalisation for an array of length
`len`: a negative index wraps around the end. -/
def npNorm (len : ℕ) (i : ℤ) : ℕ :=
  if i < 0 then (len + i).toNat else i.toNat

/-- Read element `i` of a NumPy array of length `len`. -/
def npGet {α : Type} (a : ℕ → α) (len : ℕ) (i : ℤ) : α :=
  a (npNorm len i)

/-- Write value `v` at element `i` of a NumPy array of length `len`. -/
def npSet {α : Type} (a : ℕ → α) (len : ℕ) (i : ℤ) (v : α) : ℕ → α :=
  fun j => if j = npNorm len i then v else a j

/-- Python slice-bound normalisation for an array of length `len`:
negative bounds count from the end, and bounds are clamped to
`[0, len]`. -/
def sliceIdx (len : ℕ) (i : ℤ) : ℕ :=
  if i < 0 then (len + i).toNat else min i.toNat len

/-- NumPy slice assignment `a[lo:hi] = v` of a scalar `v` into an
array of length `len`. -/
def setSliceConst {α : Type} (a : ℕ → α) (len : ℕ) (lo hi : ℤ) (v : α) : ℕ → α :=
  fun j => if sliceIdx len lo ≤ j ∧ j < sliceIdx len hi then v else a j

/-- The exceptions raised by the engine.  The first five are the
distinguished validation errors from `exceptions.py` (module not under
`src/`, modelled from the spec); the last four model built-in Python
exceptions that the code in `src/fdtd.py` can trigger. -/
inductive PyError where
  | areaSizeError
  | spaceStepError
  | scValueError
  | timeDurationError
  | timeStepError
  | zeroDivisionError
  | valueError
  | typeError
  | indexError
deriving DecidableEq

/-- Modelled from the spec (section 4.5): the `boundary` module is not
under `src/`.  A fixed-value (PEC) boundary statelessly zeroes its edge
element of `E`; an absorbing boundary keeps a coefficient and a
one-sample history of the neighbouring field value. -/
inductive Boundary where
  | pecLeft
  | pecRight
  | abcLeft (coeff : ℝ) (oldE : ℝ)
  | abcRight (coeff : ℝ) (oldE : ℝ)

/-- Modelled from the spec (section 4.5): `update_field(E, H)` for one
edge.  A PEC boundary sets its edge element of `E` to zero and keeps
no state; an absorbing boundary extrapolates the edge value from its
retained history and coefficient, then refreshes the history.
`N` is the length of the `E` array; `H` is unused by these variants. -/
noncomputable def Boundary.update_field (b : Boundary) (E H : ℕ → ℝ) (N : ℕ) :
    (ℕ → ℝ) × Boundary :=
  match b with
  | .pecLeft => (npSet E N 0 0, .pecLeft)
  | .pecRight => (npSet E N (-1) 0, .pecRight)
  | .abcLeft k old =>
      (npSet E N 0 (old + k * (npGet E N 1 - npGet E N 0)), .abcLeft k (npGet E N 1))
  | .abcRight k old =>
      (npSet E N (-1) (old + k * (npGet E N (-2) - npGet E N (-1))),
        .abcRight k (npGet E N (-2)))

/-- Modelled from the spec (section 4.6): the `probe` module is not
under `src/`.  A probe stores its grid index, the preallocated series
length `time_counts`, and the samples recorded so far. -/
structure Probe where
  position : ℤ
  seriesLen : ℤ
  data : List (ℝ × ℝ)

/-- Modelled from the spec (section 4.6): each step the probe records
the local `(E, H)` sample at its position.  `N` is the length of `E`
(so `H` has length `N - 1`). -/
def Probe.add_data (p : Probe) (E H : ℕ → ℝ) (N : ℕ) : Probe :=
  { p with data := p.data ++ [(npGet E N p.position, npGet H (N - 1) p.position)] }

/-- Modelled from the spec (section 3): the `layer` module is not under
`src/`.  A layer holds a mutable name, a physical area `(start, end)`
and scalar material values. -/
structure Layer where
  name : String
  area : ℚ × ℚ
  eps : ℚ
  mu : ℚ
  sigma : ℚ
deriving DecidableEq

/-- Modelled from the spec (sections 3, 4.4): the `source` module is
not under `src/`.  Before registration a source has a physical
position and an excitation function `(offset, time) ↦ value`
(the method `Source.E` in the code). -/
structure Source where
  position : ℚ
  excitation : ℚ → ℚ → ℝ

/-- A source after registration by `add_source`: the position has been
converted to a grid index and eps, mu, Sc, dt have been snapshotted
from the grid state. -/
structure RegSource where
  position : ℤ
  eps : ℚ
  mu : ℚ
  Sc : ℚ
  dt : ℚ
  excitation : ℚ → ℚ → ℝ

/-- The state of the `FDTD` engine (`src/fdtd.py`, lines 33-52 and
101-104).  `area_size` is the grid size `N = int(area_size // dx)`;
`E`, `eps`, `sigma`, `ceze`, `cezh` are arrays of length `N`; `H` and
`mu` have length `N - 1`.  `ceze` and `cezh` are left unset by the
constructor and computed by `analyze`; the model initialises them to
the zero function. -/
@[ext]
structure FDTDState where
  dx : ℚ
  area_size : ℤ
  Sc : ℚ
  time_duration : ℚ
  dt : ℚ
  time_counts : ℤ
  E : ℕ → ℝ
  H : ℕ → ℝ
  eps : ℕ → ℚ
  sigma : ℕ → ℚ
  mu : ℕ → ℚ
  borders : List ℚ
  boundaryLeft : Boundary
  boundaryRight : Boundary
  sources : List RegSource
  probes : List Probe
  layers : List Layer
  ceze : ℕ → ℝ
  cezh : ℕ → ℝ
  current_time : ℚ

/-- The allocated grid size as a natural number. -/
def FDTDState.Nn (s : FDTDState) : ℕ := s.area_size.toNat

/-- The state built by a successful run of `FDTD.__init__`
(lines 33-52): `N = int(area_size // dx)`, `dt = dx * Sc / c`,
`time_counts = int(time_duration // dt)`, zero fields, vacuum
materials, default PEC boundaries, empty collections. -/
def initState (area_size space_step time_duration Sc : ℚ) : FDTDState :=
  { dx := space_step
    area_size := ⌊area_size / space_step⌋
    Sc := Sc
    time_duration := time_duration
    dt := space_step * Sc / c
    time_counts := ⌊time_duration / (space_step * Sc / c)⌋
    E := fun _ => 0
    H := fun _ => 0
    eps := fun _ => 1
    sigma := fun _ => 0
    mu := fun _ => 1
    borders := []
    boundaryLeft := .pecLeft
    boundaryRight := .pecRight
    sources := []
    probes := []
    layers := []
    ceze := fun _ => 0
    cezh := fun _ => 0
    current_time := 0 }

/-- Construction of the engine (`FDTD.__init__` with
`__validate_init_data`, lines 28-77).  The five validation rules are
checked in source order; after validation, `N = int(area_size // dx)`
is computed (Python raises `ZeroDivisionError` when `dx = 0`) and the
NumPy allocations `np.zeros(N)` and `np.zeros(N - 1)` raise
`ValueError` when their size is negative, which happens exactly when
`N < 1`. -/
def init (area_size space_step time_duration Sc : ℚ) : Except PyError FDTDState :=
  if area_size ≤ 0 then .error .areaSizeError
  else if area_size < space_step then .error .spaceStepError
  else if Sc ≤ 0 then .error .scValueError
  else if time_duration ≤ 0 then .error .timeDurationError
  else if time_duration < space_step * Sc / c then .error .timeStepError
  else if space_step = 0 then .error .zeroDivisionError
  else if ⌊area_size / space_step⌋ < 1 then .error .valueError
  else .ok (initState area_size space_step time_duration Sc)

/-- The coefficient computation and time reset from `FDTD.analyze`
(lines 101-104); the GUI, progress-bar and timer work of `analyze` is
outside the core and not modelled. -/
noncomputable def analyze (s : FDTDState) : FDTDState :=
  { s with
    ceze := fun i => (1 - (s.sigma i : ℝ)) / (1 + (s.sigma i : ℝ))
    cezh := fun i => W_0 / ((s.eps i : ℝ) * (1 + (s.sigma i : ℝ)))
    current_time := 0 }

/-- Argument of `FDTD.add_probes`: the dynamically typed Python value
passed in.  `pseq` covers the non-string sequences accepted by the
`case [*args]` pattern; strings are not matched by sequence patterns. -/
inductive PyVal where
  | pfloat (q : ℚ)
  | pint (z : ℤ)
  | pseq (l : List ℚ)
  | pstr (t : String)

/-- `FDTD.add_probes` (lines 154-169): a float position or a sequence
of positions is converted to grid indices by floor division by `dx`;
any other argument raises `TypeError` before any probe is appended. -/
def add_probes (s : FDTDState) (v : PyVal) : Except PyError FDTDState :=
  match v with
  | .pfloat q =>
      .ok { s with probes := s.probes ++ [⟨⌊q / s.dx⌋, s.time_counts, []⟩] }
  | .pseq l =>
      .ok { s with probes :=
              s.probes ++ l.map (fun q => ⟨⌊q / s.dx⌋, s.time_counts, []⟩) }
  | _ => .error .typeError

/-- `FDTD.add_source` (lines 171-178): the physical position is
converted to a grid index by floor division by `dx` and stored back
into the source; eps, mu, Sc and dt are snapshotted from the current
grid state. -/
def add_source (s : FDTDState) (src : Source) : FDTDState :=
  { s with sources := s.sources ++
      [{ position := ⌊src.position / s.dx⌋
         eps := npGet s.eps s.Nn ⌊src.position / s.dx⌋
         mu := npGet s.mu (s.Nn - 1) ⌊src.position / s.dx⌋
         Sc := s.Sc
         dt := s.dt
         excitation := src.excitation }] }

/-- `FDTD.add_layer` (lines 180-190): assigns the sequential name
`"Layer" + str(len(layers))`, appends the layer, overwrites
eps/mu/sigma over the index range `[int(area0/dx), int(area1/dx))`
(note `mu` has length `N - 1`), and appends both physical bounds to
the borders list. -/
def add_layer (s : FDTDState) (L : Layer) : FDTDState :=
  { s with
    layers := s.layers ++ [{ L with name := "Layer" ++ toString s.layers.length }]
    eps := setSliceConst s.eps s.Nn (pyTrunc (L.area.1 / s.dx))
             (pyTrunc (L.area.2 / s.dx)) L.eps
    mu := setSliceConst s.mu (s.Nn - 1) (pyTrunc (L.area.1 / s.dx))
             (pyTrunc (L.area.2 / s.dx)) L.mu
    sigma := setSliceConst s.sigma s.Nn (pyTrunc (L.area.1 / s.dx))
             (pyTrunc (L.area.2 / s.dx)) L.sigma
    borders := s.borders ++ [L.area.1, L.area.2] }

/-- Linear search for the first layer with the given name, returning
its index and the layer (the loop of `FDTD.delete_layer`). -/
def find_layer : List Layer → String → ℕ → Option (ℕ × Layer)
  | [], _, _ => none
  | l :: ls, name, i => if l.name = name then some (i, l) else find_layer ls name (i + 1)

/-- Python `list.pop(i)` for a nonnegative index: raises `IndexError`
when the index is out of range. -/
def pop_at (l : List ℚ) (i : ℕ) : Except PyError (List ℚ) :=
  if i < l.length then .ok (l.eraseIdx i) else .error .indexError

/-- `FDTD.delete_layer` (lines 192-205): linear search by name; on the
first match, resets eps/mu/sigma over the stored index range to the
vacuum defaults (1, 1, 0), pops borders entries `2i + 1` and `2i`, and
removes the layer; with no match the state is returned unchanged.  In
the source the array resets happen before the pops, so on an
`IndexError` from a pop the resets have already been applied; the
`Except` model does not retain that incomplete effect. -/
def delete_layer (s : FDTDState) (name : String) : Except PyError FDTDState :=
  match find_layer s.layers name 0 with
  | none => .ok s
  | some (i, L) => do
      let borders1 ← pop_at s.borders (2 * i + 1)
      let borders2 ← pop_at borders1 (2 * i)
      .ok { s with
            eps := setSliceConst s.eps s.Nn (pyTrunc (L.area.1 / s.dx))
                     (pyTrunc (L.area.2 / s.dx)) 1
            mu := setSliceConst s.mu (s.Nn - 1) (pyTrunc (L.area.1 / s.dx))
                     (pyTrunc (L.area.2 / s.dx)) 1
            sigma := setSliceConst s.sigma s.Nn (pyTrunc (L.area.1 / s.dx))
                     (pyTrunc (L.area.2 / s.dx)) 0
            borders := borders2
            layers := s.layers.eraseIdx i }

/-- `FDTD.next_iteration` (lines 115-152).  When the completed-step
count `int(current_time // dt)` is below `time_counts`: the H update,
the per-source H injection, the interior E update, both boundary
updates (left first, matching dataclass field order), the per-source E
injection, probe sampling, and the time advance, in source order.
Past `time_counts` the simulation state is unchanged (the code only
stops the external timer). -/
noncomputable def next_iteration (s : FDTDState) : FDTDState :=
  if ⌊s.current_time / s.dt⌋ < s.time_counts then
    let H1 : ℕ → ℝ := fun i =>
      if i < s.Nn - 1 then
        s.H i + (s.E (i + 1) - s.E i) * (s.Sc : ℝ) / (W_0 * (s.mu i : ℝ))
      else s.H i
    let H2 : ℕ → ℝ := s.sources.foldl (fun Hc src =>
      npSet Hc (s.Nn - 1) (src.position - 1)
        (npGet Hc (s.Nn - 1) (src.position - 1) -
          (s.Sc : ℝ) / (W_0 * ((npGet s.mu (s.Nn - 1) (src.position - 1) : ℚ) : ℝ)) *
            src.excitation 0 (s.current_time / s.dt))) H1
    let E1 : ℕ → ℝ := fun j =>
      if 1 ≤ j ∧ j < s.Nn - 1 then
        s.ceze j * s.E j + (H2 j - H2 (j - 1)) * (s.Sc : ℝ) * s.cezh j
      else s.E j
    let left := s.boundaryLeft.update_field E1 H2 s.Nn
    let right := s.boundaryRight.update_field left.1 H2 s.Nn
    let E3 : ℕ → ℝ := s.sources.foldl (fun Ec src =>
      npSet Ec s.Nn src.position
        (npGet Ec s.Nn src.position +
          (s.Sc : ℝ) /
            Real.sqrt ((npGet s.eps s.Nn src.position : ℚ) *
              (npGet s.mu (s.Nn - 1) src.position : ℚ)) *
            src.excitation (-(1 / 2)) (s.current_time / s.dt + 1 / 2))) right.1
    { s with
      H := H2
      E := E3
      boundaryLeft := left.2
      boundaryRight := right.2
      probes := s.probes.map (fun p => p.add_data E3 H2 s.Nn)
      current_time := s.current_time + s.dt }
  else s

/-- A small concrete engine state (grid of 10 cells, `dx = 1/10`,
`dt = 1`, two time counts) used to instantiate theorems that carry
hypotheses. -/
def baseState : FDTDState :=
  { dx := 1/10
    area_size := 10
    Sc := 1
    time_duration := 2
    dt := 1
    time_counts := 2
    E := fun _ => 0
    H := fun _ => 0
    eps := fun _ => 1
    sigma := fun _ => 0
    mu := fun _ => 1
    borders := []
    boundaryLeft := .pecLeft
    boundaryRight := .pecRight
    sources := []
    probes := []
    layers := []
    ceze := fun _ => 0
    cezh := fun _ => 0
    current_time := 0 }

/-- A concrete layer covering physical range `[0, 1/2)` with
`eps = 2`. -/
def layerA : Layer := { name := "A", area := (0, 1/2), eps := 2, mu := 1, sigma := 0 }

/-- A concrete layer covering physical range `[1/5, 2/5)`, overlapping
the range of `layerA`. -/
def layerB : Layer := { name := "B", area := (1/5, 2/5), eps := 3, mu := 1, sigma := 0 }

/-- A concrete layer used for the layer round-trip witness. -/
def layerW : Layer := { name := "X", area := (1/5, 2/5), eps := 3, mu := 2, sigma := 1 }

/-- The engine state after registering `layerA` on `baseState`:
`eps = 2` on grid indices `[0, 5)`, one layer named `"Layer0"`. -/
def stateA : FDTDState := add_layer baseState layerA

/-- C2 (amended): for all rational inputs, construction raises
AreaSizeError iff `area_size ≤ 0`; otherwise SpaceStepError iff
`space_step > area_size`; otherwise ScValueError iff `Sc ≤ 0`;
otherwise TimeDurationError iff `time_duration ≤ 0`; otherwise
TimeStepError iff `space_step * Sc / c > time_duration`; otherwise
construction succeeds iff additionally `space_step > 0` (for
`space_step ≤ 0` every validation rule passes but the constructor
raises ZeroDivisionError or ValueError instead of succeeding). -/
theorem c2_validation_order (a dx td Sc : ℚ) :
    (init a dx td Sc = .error .areaSizeError ↔ a ≤ 0) ∧
    (¬ a ≤ 0 → (init a dx td Sc = .error .spaceStepError ↔ a < dx)) ∧
    (¬ a ≤ 0 → ¬ a < dx → (init a dx td Sc = .error .scValueError ↔ Sc ≤ 0)) ∧
    (¬ a ≤ 0 → ¬ a < dx → ¬ Sc ≤ 0 →
      (init a dx td Sc = .error .timeDurationError ↔ td ≤ 0)) ∧
    (¬ a ≤ 0 → ¬ a < dx → ¬ Sc ≤ 0 → ¬ td ≤ 0 →
      (init a dx td Sc = .error .timeStepError ↔ td < dx * Sc / c)) ∧
    (¬ a ≤ 0 → ¬ a < dx → ¬ Sc ≤ 0 → ¬ td ≤ 0 → ¬ td < dx * Sc / c →
      ((∃ s, init a dx td Sc = .ok s) ↔ 0 < dx)) := by
  refine ⟨?_, ?_, ?_, ?_, ?_, ?_⟩
  · unfold init
    split_ifs <;> simp_all
  · intro h1
    unfold init
    split_ifs <;> simp_all
  · intro h1 h2
    unfold init
    split_ifs <;> simp_all
  · intro h1 h2 h3
    unfold init
    split_ifs <;> simp_all
  · intro h1 h2 h3 h4
    unfold init
    split_ifs <;> simp_all
  · intro h1 h2 h3 h4 h5
    have h1p : 0 < a := not_le.mp h1
    have h2p : dx ≤ a := not_lt.mp h2
    unfold init
    rw [if_neg h1, if_neg h2, if_neg h3, if_neg h4, if_neg h5]
    by_cases g6 : dx = 0
    · rw [if_pos g6]
      constructor
      · rintro ⟨s, hs⟩
        cases hs
      · intro hdx
        rw [g6] at hdx
        exact absurd hdx (lt_irrefl 0)
    · rw [if_neg g6]
      by_cases g7 : ⌊a / dx⌋ < 1
      · rw [if_pos g7]
        constructor
        · rintro ⟨s, hs⟩
          cases hs
        · intro hdx
          exfalso
          have hd : (1 : ℚ) ≤ a / dx := (one_le_div hdx).mpr h2p
          have hge : (1 : ℤ) ≤ ⌊a / dx⌋ := Int.le_floor.mpr (by exact_mod_cast hd)
          omega
      · rw [if_neg g7]
        constructor
        · intro _
          rcases lt_trichotomy dx 0 with hneg | hzero | hpos
          · exfalso
            have hq : a / dx < ((1 : ℤ) : ℚ) := by
              push_cast
              exact lt_trans (div_neg_of_pos_of_neg h1p hneg) one_pos
            exact g7 (Int.floor_lt.mpr hq)
          · exact absurd hzero g6
          · exact hpos
        · intro _
          exact ⟨_, rfl⟩

/-- C2 counterexample to the claim as stated: with inputs
`(area_size, space_step, time_duration, Sc) = (1, -1, 1, 1)` none of
the five validation rules is violated, yet construction does not
succeed: `int(1 // -1) = -1` and `np.zeros(-1)` raises ValueError. -/
theorem c2_counterexample : init 1 (-1) 1 1 = .error .valueError := by
  unfold init
  norm_num [c]

/-- C2 witness: the amended characterisation instantiated at concrete
inputs `(0, 1, 1, 1)`, where the first rule fires. -/
theorem c2_witness :
    (init 0 1 1 1 = .error .areaSizeError ↔ (0 : ℚ) ≤ 0) ∧
    (¬ (0 : ℚ) ≤ 0 → (init 0 1 1 1 = .error .spaceStepError ↔ (0 : ℚ) < 1)) ∧
    (¬ (0 : ℚ) ≤ 0 → ¬ (0 : ℚ) < 1 →
      (init 0 1 1 1 = .error .scValueError ↔ (1 : ℚ) ≤ 0)) ∧
    (¬ (0 : ℚ) ≤ 0 → ¬ (0 : ℚ) < 1 → ¬ (1 : ℚ) ≤ 0 →
      (init 0 1 1 1 = .error .timeDurationError ↔ (1 : ℚ) ≤ 0)) ∧
    (¬ (0 : ℚ) ≤ 0 → ¬ (0 : ℚ) < 1 → ¬ (1 : ℚ) ≤ 0 → ¬ (1 : ℚ) ≤ 0 →
      (init 0 1 1 1 = .error .timeStepError ↔ (1 : ℚ) < 1 * 1 / c)) ∧
    (¬ (0 : ℚ) ≤ 0 → ¬ (0 : ℚ) < 1 → ¬ (1 : ℚ) ≤ 0 → ¬ (1 : ℚ) ≤ 0 →
      ¬ (1 : ℚ) < 1 * 1 / c → ((∃ s, init 0 1 1 1 = .ok s) ↔ (0 : ℚ) < 1)) :=
  c2_validation_order 0 1 1 1

/-- C6 (amended): every construction on which validation passes and
the allocations succeed yields the grid size
`N = floor(area_size / space_step)` with `N ≥ 1`; the model records
the allocated lengths `N` (for `E`, `eps`, `sigma`) and `N - 1` (for
`H`, `mu`) through the `area_size` field.  The original bound `N ≥ 2`
does not hold. -/
theorem c6_grid_size (a dx td Sc : ℚ) (s : FDTDState)
    (h : init a dx td Sc = .ok s) :
    s.area_size = ⌊a / dx⌋ ∧ 1 ≤ s.area_size := by
  unfold init at h
  split_ifs at h with g1 g2 g3 g4 g5 g6 g7
  cases h
  refine ⟨rfl, ?_⟩
  simp only [initState]
  omega

/-- C6 witness: a successful construction with `area_size = 1`,
`space_step = 1/2`, giving `N = 2`. -/
theorem c6_witness :
    (initState 1 (1/2) 1 1).area_size = ⌊(1 : ℚ) / (1/2)⌋ ∧
    1 ≤ (initState 1 (1/2) 1 1).area_size :=
  c6_grid_size 1 (1/2) 1 1 (initState 1 (1/2) 1 1) (by unfold init; norm_num [c])

/-- C6 counterexample to the claim as stated: `area_size = 1`,
`space_step = 6/10` passes validation and constructs a grid with
`N = 1 < 2`, so the `H` array is empty. -/
theorem c6_counterexample :
    init 1 (6/10) 1 1 = .ok (initState 1 (6/10) 1 1) ∧
    (initState 1 (6/10) 1 1).area_size = 1 ∧
    ¬ 2 ≤ (initState 1 (6/10) 1 1).area_size := by
  refine ⟨by unfold init; norm_num [c], ?_, ?_⟩
  · simp only [initState]
    norm_num
  · simp only [initState]
    norm_num

/-- C8: on the engine constructed with `area_size = 1`,
`space_step = 0.01`, `time_duration = 1e-8`, `Sc = 1`, the call
`add_probes([0.2, 0.7])` creates exactly two probes, at grid indices
20 and 70, each with a preallocated series of length `time_counts`. -/
theorem c8_two_probes :
    init 1 0.01 1e-8 1 = .ok (initState 1 0.01 1e-8 1) ∧
    (add_probes (initState 1 0.01 1e-8 1) (.pseq [0.2, 0.7])).map
        FDTDState.probes =
      .ok [⟨20, (initState 1 0.01 1e-8 1).time_counts, []⟩,
           ⟨70, (initState 1 0.01 1e-8 1).time_counts, []⟩] := by
  constructor
  · unfold init
    norm_num [c]
  · simp only [add_probes, Except.map, initState, List.map]
    norm_num

/-- C1: whenever the completed-step count `int(current_time // dt)` is
below `time_counts`, one call to `next_iteration` performs, in this
strict order: (1) the whole-array H update
`H + (E[1:] - E[:-1])·Sc/(W_0·mu)`; (2) for each source a subtraction
of `Sc/(W_0·mu[pos-1])·excitation(0, t/dt)` at `H[pos-1]`; (3) the
interior E update `ceze·E + (H[1:] - H[:-1])·Sc·cezh` on `E[1:-1]`,
leaving `E[0]` and `E[-1]` untouched; (4) both boundary updates, left
then right; (5) for each source an addition of
`Sc/sqrt(eps[pos]·mu[pos])·excitation(-1/2, t/dt + 1/2)` at `E[pos]`;
(6) a probe sample per registered probe; and (7) the advance of the
current time by `dt`. -/
theorem c1_step_order (s : FDTDState)
    (h : ⌊s.current_time / s.dt⌋ < s.time_counts) :
    next_iteration s =
      (let stepH : ℕ → ℝ := fun i =>
        if i < s.Nn - 1 then
          s.H i + (s.E (i + 1) - s.E i) * (s.Sc : ℝ) / (W_0 * (s.mu i : ℝ))
        else s.H i
      let injH : ℕ → ℝ := s.sources.foldl (fun Hc src =>
        npSet Hc (s.Nn - 1) (src.position - 1)
          (npGet Hc (s.Nn - 1) (src.position - 1) -
            (s.Sc : ℝ) /
              (W_0 * ((npGet s.mu (s.Nn - 1) (src.position - 1) : ℚ) : ℝ)) *
              src.excitation 0 (s.current_time / s.dt))) stepH
      let stepE : ℕ → ℝ := fun j =>
        if 1 ≤ j ∧ j < s.Nn - 1 then
          s.ceze j * s.E j + (injH j - injH (j - 1)) * (s.Sc : ℝ) * s.cezh j
        else s.E j
      let bl := s.boundaryLeft.update_field stepE injH s.Nn
      let br := s.boundaryRight.update_field bl.1 injH s.Nn
      let injE : ℕ → ℝ := s.sources.foldl (fun Ec src =>
        npSet Ec s.Nn src.position
          (npGet Ec s.Nn src.position +
            (s.Sc : ℝ) /
              Real.sqrt ((npGet s.eps s.Nn src.position : ℚ) *
                (npGet s.mu (s.Nn - 1) src.position : ℚ)) *
              src.excitation (-(1 / 2)) (s.current_time / s.dt + 1 / 2))) br.1
      { s with
        H := injH
        E := injE
        boundaryLeft := bl.2
        boundaryRight := br.2
        probes := s.probes.map (fun p => p.add_data injE injH s.Nn)
        current_time := s.current_time + s.dt }) := by
  unfold next_iteration
  rw [if_pos h]

/-- C1 witness: on the concrete base state the guard holds and the
step advances the current time by `dt`. -/
theorem c1_witness :
    ⌊baseState.current_time / baseState.dt⌋ < baseState.time_counts ∧
    (next_iteration baseState).current_time =
      baseState.current_time + baseState.dt :=
  ⟨by norm_num [baseState],
   by rw [c1_step_order baseState (by norm_num [baseState])]⟩

/-- One zero-preserving step: with no sources, PEC boundaries and
identically zero fields, `next_iteration` keeps the sources, the PEC
boundaries and the zero fields. -/
theorem next_iteration_zero (s : FDTDState)
    (hsrc : s.sources = []) (hbl : s.boundaryLeft = .pecLeft)
    (hbr : s.boundaryRight = .pecRight)
    (hE : s.E = fun _ => 0) (hH : s.H = fun _ => 0) :
    (next_iteration s).sources = [] ∧
    (next_iteration s).boundaryLeft = .pecLeft ∧
    (next_iteration s).boundaryRight = .pecRight ∧
    (next_iteration s).E = (fun _ => 0) ∧
    (next_iteration s).H = (fun _ => 0) := by
  unfold next_iteration
  by_cases hg : ⌊s.current_time / s.dt⌋ < s.time_counts
  · rw [if_pos hg]
    refine ⟨?_, ?_, ?_, ?_, ?_⟩ <;>
      simp [hsrc, hbl, hbr, hE, hH, Boundary.update_field, npSet, npGet]
    funext i
    simp [npSet]
  · rw [if_neg hg]
    exact ⟨hsrc, hbl, hbr, hE, hH⟩

/-- C3: with no registered sources, identically zero conductivity,
both default PEC boundaries and identically zero fields, any number of
repetitions of `next_iteration` leaves `E` and `H` identically
zero. -/
theorem c3_zero_fixed_point (s : FDTDState) (n : ℕ)
    (hsrc : s.sources = []) (hsig : s.sigma = fun _ => 0)
    (hbl : s.boundaryLeft = .pecLeft) (hbr : s.boundaryRight = .pecRight)
    (hE : s.E = fun _ => 0) (hH : s.H = fun _ => 0) :
    (next_iteration^[n] s).E = (fun _ => 0) ∧
    (next_iteration^[n] s).H = (fun _ => 0) := by
  have key : ∀ m t, t.sources = [] → t.boundaryLeft = .pecLeft →
      t.boundaryRight = .pecRight → t.E = (fun _ => 0) → t.H = (fun _ => 0) →
      (next_iteration^[m] t).sources = [] ∧
      (next_iteration^[m] t).boundaryLeft = .pecLeft ∧
      (next_iteration^[m] t).boundaryRight = .pecRight ∧
      (next_iteration^[m] t).E = (fun _ => 0) ∧
      (next_iteration^[m] t).H = (fun _ => 0) := by
    intro m
    induction m with
    | zero =>
        intro t h1 h2 h3 h4 h5
        simpa using ⟨h1, h2, h3, h4, h5⟩
    | succ m ih =>
        intro t h1 h2 h3 h4 h5
        rw [Function.iterate_succ_apply]
        obtain ⟨a1, a2, a3, a4, a5⟩ := next_iteration_zero t h1 h2 h3 h4 h5
        exact ih _ a1 a2 a3 a4 a5
  obtain ⟨-, -, -, h4, h5⟩ := key n s hsrc hbl hbr hE hH
  exact ⟨h4, h5⟩

/-- C3 witness: three steps on the concrete all-zero base state. -/
theorem c3_witness :
    (next_iteration^[3] baseState).E = (fun _ => 0) ∧
    (next_iteration^[3] baseState).H = (fun _ => 0) :=
  c3_zero_fixed_point baseState 3 rfl rfl rfl rfl rfl rfl

/-- C5: `add_source` converts the physical position to a grid index by
floor division by `dx`, stores the index in the registered source, and
snapshots `eps[index]`, `mu[index]`, `Sc` and `dt` from the grid state
at registration time; a later `add_layer` call, whether or not it
covers that index, leaves the registered source unchanged. -/
theorem c5_add_source_snapshot (s : FDTDState) (src : Source) (L : Layer) :
    (add_source s src).sources = s.sources ++
      [{ position := ⌊src.position / s.dx⌋
         eps := npGet s.eps s.Nn ⌊src.position / s.dx⌋
         mu := npGet s.mu (s.Nn - 1) ⌊src.position / s.dx⌋
         Sc := s.Sc
         dt := s.dt
         excitation := src.excitation }] ∧
    (add_layer (add_source s src) L).sources = (add_source s src).sources :=
  ⟨rfl, rfl⟩

/-- C7: once the completed-step count reaches `time_counts`, a further
call to `next_iteration` leaves the whole simulation state (fields,
materials, probes, current time) unchanged and raises no error. -/
theorem c7_step_past_end (s : FDTDState)
    (h : s.time_counts ≤ ⌊s.current_time / s.dt⌋) :
    next_iteration s = s := by
  unfold next_iteration
  rw [if_neg (not_lt.mpr h)]

/-- C7 witness: a state whose current time is already past
`time_counts` steps. -/
theorem c7_witness :
    ({ baseState with current_time := 5 } : FDTDState).time_counts ≤
      ⌊({ baseState with current_time := 5 } : FDTDState).current_time /
        ({ baseState with current_time := 5 } : FDTDState).dt⌋ ∧
    next_iteration { baseState with current_time := 5 } =
      { baseState with current_time := 5 } :=
  ⟨by simp only [baseState]; norm_num,
   c7_step_past_end _ (by simp only [baseState]; norm_num)⟩

/-- If no layer in the list bears the given name, the linear search of
`delete_layer` finds nothing, whatever the starting index. -/
theorem find_layer_eq_none (ls : List Layer) (name : String) (i : ℕ)
    (h : ∀ l ∈ ls, l.name ≠ name) : find_layer ls name i = none := by
  induction ls generalizing i with
  | nil => rfl
  | cons l ls ih =>
      simp only [find_layer]
      rw [if_neg (h l (List.mem_cons_self l ls))]
      exact ih _ (fun x hx => h x (List.mem_cons_of_mem _ hx))

/-- C9: deleting a name that matches no registered layer returns
normally and leaves the layer list, the borders list and the eps, mu,
sigma arrays (indeed the whole state) unchanged. -/
theorem c9_delete_layer_missing_name (s : FDTDState) (name : String)
    (h : ∀ l ∈ s.layers, l.name ≠ name) :
    delete_layer s name = .ok s := by
  unfold delete_layer
  rw [find_layer_eq_none s.layers name 0 h]

/-- C9 witness: deleting from a state with no layers at all. -/
theorem c9_witness :
    (∀ l ∈ baseState.layers, l.name ≠ "Layer0") ∧
    delete_layer baseState "Layer0" = .ok baseState :=
  ⟨by simp [baseState],
   c9_delete_layer_missing_name baseState "Layer0" (by simp [baseState])⟩

/-- C10: `add_probes` raises `TypeError` when its argument is neither
a float instance nor a non-string sequence — in particular for a
Python int — and the error is raised before any probe is appended, so
the probe collection is untouched. -/
theorem c10_add_probes_type_error (s : FDTDState) (v : PyVal)
    (hf : ∀ q, v ≠ .pfloat q) (hsq : ∀ l, v ≠ .pseq l) :
    add_probes s v = .error .typeError := by
  cases v with
  | pfloat q => exact absurd rfl (hf q)
  | pseq l => exact absurd rfl (hsq l)
  | pint z => rfl
  | pstr t => rfl

/-- Binding a successful `Except` computation applies the
continuation. -/
theorem except_bind_ok {ε α β : Type} (a : α) (f : α → Except ε β) :
    Bind.bind (Except.ok a : Except ε α) f = f a := rfl

/-- Erasing at an index past a prefix erases within the suffix. -/
theorem eraseIdx_append_right {α : Type} (xs ys : List α) (n : ℕ) :
    (xs ++ ys).eraseIdx (xs.length + n) = xs ++ ys.eraseIdx n := by
  induction xs with
  | nil => simp
  | cons x xs ih =>
      have hlen : (x :: xs).length + n = (xs.length + n) + 1 := by
        simp only [List.length_cons]
        omega
      rw [List.cons_append, hlen]
      show x :: (xs ++ ys).eraseIdx (xs.length + n) = x :: (xs ++ ys.eraseIdx n)
      rw [ih]

/-- If no element of the prefix bears the name and the appended layer
does, the linear search finds the appended layer, at index
`i + length`. -/
theorem find_layer_append (ls : List Layer) (l : Layer) (name : String) (i : ℕ)
    (h : ∀ x ∈ ls, x.name ≠ name) (hl : l.name = name) :
    find_layer (ls ++ [l]) name i = some (i + ls.length, l) := by
  induction ls generalizing i with
  | nil =>
      simp only [List.nil_append, find_layer, if_pos hl, List.length_nil,
        Nat.add_zero]
  | cons x xs ih =>
      simp only [List.cons_append, find_layer]
      rw [if_neg (h x (List.mem_cons_self x xs))]
      show find_layer (xs ++ [l]) name (i + 1) = _
      rw [ih (i + 1) (fun y hy => h y (List.mem_cons_of_mem x hy))]
      simp only [Option.some.injEq, Prod.mk.injEq, List.length_cons]
      exact ⟨by omega, trivial⟩

/-- Resetting a slice to a constant value the array already held on
that slice restores the original array. -/
theorem setSliceConst_reset {α : Type} (a : ℕ → α) (len : ℕ) (lo hi : ℤ) (v w : α)
    (h : ∀ j, sliceIdx len lo ≤ j → j < sliceIdx len hi → a j = w) :
    setSliceConst (setSliceConst a len lo hi v) len lo hi w = a := by
  funext j
  by_cases hj : sliceIdx len lo ≤ j ∧ j < sliceIdx len hi
  · simp only [setSliceConst, if_pos hj]
    exact (h j hj.1 hj.2).symm
  · simp only [setSliceConst, if_neg hj]

/-- When the linear search succeeds, `delete_layer` runs the reset and
the two positional pops on the found index. -/
theorem delete_layer_found (s : FDTDState) (name : String) (i : ℕ) (L : Layer)
    (hf : find_layer s.layers name 0 = some (i, L)) :
    delete_layer s name =
      Bind.bind (pop_at s.borders (2 * i + 1)) (fun borders1 =>
        Bind.bind (pop_at borders1 (2 * i)) (fun borders2 =>
          Except.ok { s with
            eps := setSliceConst s.eps s.Nn (pyTrunc (L.area.1 / s.dx))
                     (pyTrunc (L.area.2 / s.dx)) 1
            mu := setSliceConst s.mu (s.Nn - 1) (pyTrunc (L.area.1 / s.dx))
                     (pyTrunc (L.area.2 / s.dx)) 1
            sigma := setSliceConst s.sigma s.Nn (pyTrunc (L.area.1 / s.dx))
                     (pyTrunc (L.area.2 / s.dx)) 0
            borders := borders2
            layers := s.layers.eraseIdx i })) := by
  unfold delete_layer
  rw [hf]

/-- C4 (amended): if no registered layer already bears the name that
`add_layer` will assign, the borders list has exactly two entries per
registered layer, and eps, mu, sigma hold the vacuum defaults
(1, 1, 0) on the index range of `L`, then `add_layer L` immediately
followed by `delete_layer` of the assigned name restores the whole
engine state.  Without these conditions the round trip can fail
(see the counterexample). -/
theorem c4_layer_round_trip (s : FDTDState) (L : Layer)
    (hname : ∀ l ∈ s.layers, l.name ≠ "Layer" ++ toString s.layers.length)
    (hborders : s.borders.length = 2 * s.layers.length)
    (heps : ∀ j, sliceIdx s.Nn (pyTrunc (L.area.1 / s.dx)) ≤ j →
        j < sliceIdx s.Nn (pyTrunc (L.area.2 / s.dx)) → s.eps j = 1)
    (hmu : ∀ j, sliceIdx (s.Nn - 1) (pyTrunc (L.area.1 / s.dx)) ≤ j →
        j < sliceIdx (s.Nn - 1) (pyTrunc (L.area.2 / s.dx)) → s.mu j = 1)
    (hsig : ∀ j, sliceIdx s.Nn (pyTrunc (L.area.1 / s.dx)) ≤ j →
        j < sliceIdx s.Nn (pyTrunc (L.area.2 / s.dx)) → s.sigma j = 0) :
    delete_layer (add_layer s L) ("Layer" ++ toString s.layers.length) = .ok s := by
  have hlayers : (add_layer s L).layers =
      s.layers ++ [{ L with name := "Layer" ++ toString s.layers.length }] := rfl
  have hfind : find_layer (add_layer s L).layers
      ("Layer" ++ toString s.layers.length) 0 =
      some (s.layers.length,
        { L with name := "Layer" ++ toString s.layers.length }) := by
    rw [hlayers]
    simpa using find_layer_append s.layers _ _ 0 hname rfl
  rw [delete_layer_found (add_layer s L) _ s.layers.length _ hfind]
  have hb1 : pop_at (add_layer s L).borders (2 * s.layers.length + 1) =
      .ok (s.borders ++ [L.area.1]) := by
    show pop_at (s.borders ++ [L.area.1, L.area.2]) (2 * s.layers.length + 1) = _
    unfold pop_at
    rw [if_pos]
    · congr 1
      rw [show 2 * s.layers.length + 1 = s.borders.length + 1 by omega,
          eraseIdx_append_right]
      rfl
    · simp only [List.length_append, List.length_cons, List.length_nil]
      omega
  rw [hb1, except_bind_ok]
  have hb2 : pop_at (s.borders ++ [L.area.1]) (2 * s.layers.length) =
      .ok s.borders := by
    unfold pop_at
    rw [if_pos]
    · congr 1
      rw [show 2 * s.layers.length = s.borders.length + 0 by omega,
          eraseIdx_append_right]
      simp
    · simp only [List.length_append, List.length_cons, List.length_nil]
      omega
  rw [hb2, except_bind_ok]
  refine congrArg Except.ok ?_
  apply FDTDState.ext <;> try rfl
  · show setSliceConst (setSliceConst s.eps s.Nn (pyTrunc (L.area.1 / s.dx))
        (pyTrunc (L.area.2 / s.dx)) L.eps) s.Nn (pyTrunc (L.area.1 / s.dx))
        (pyTrunc (L.area.2 / s.dx)) 1 = s.eps
    exact setSliceConst_reset _ _ _ _ _ _ heps
  · show setSliceConst (setSliceConst s.sigma s.Nn (pyTrunc (L.area.1 / s.dx))
        (pyTrunc (L.area.2 / s.dx)) L.sigma) s.Nn (pyTrunc (L.area.1 / s.dx))
        (pyTrunc (L.area.2 / s.dx)) 0 = s.sigma
    exact setSliceConst_reset _ _ _ _ _ _ hsig
  · show setSliceConst (setSliceConst s.mu (s.Nn - 1) (pyTrunc (L.area.1 / s.dx))
        (pyTrunc (L.area.2 / s.dx)) L.mu) (s.Nn - 1) (pyTrunc (L.area.1 / s.dx))
        (pyTrunc (L.area.2 / s.dx)) 1 = s.mu
    exact setSliceConst_reset _ _ _ _ _ _ hmu
  · show (s.layers ++ [{ L with name := "Layer" ++ toString s.layers.length }]).eraseIdx
        s.layers.length = s.layers
    rw [show s.layers.length = s.layers.length + 0 from (Nat.add_zero _).symm,
        eraseIdx_append_right]
    simp

/-- C4 witness: the round trip on a vacuum state with no layers. -/
theorem c4_witness :
    delete_layer (add_layer baseState layerW)
        ("Layer" ++ toString baseState.layers.length) = .ok baseState :=
  c4_layer_round_trip baseState layerW
    (by simp [baseState]) (by simp [baseState])
    (fun _ _ _ => rfl) (fun _ _ _ => rfl) (fun _ _ _ => rfl)

/-- C4 counterexample to the claim as stated: on the engine state that
already carries `layerA` (named `"Layer0"`, `eps = 2` on indices
`[0, 5)`), adding the overlapping `layerB` and immediately deleting it
resets `eps` on indices `[2, 4)` to the vacuum value 1, not to the
pre-add value 2, so the grid state is not restored. -/
theorem c4_counterexample :
    (delete_layer (add_layer stateA layerB)
        ("Layer" ++ toString stateA.layers.length)).map (fun r => r.eps 2) =
      .ok 1 ∧
    stateA.eps 2 = 2 := by
  constructor
  · norm_num +decide [delete_layer, add_layer, find_layer, pop_at, stateA,
      baseState, layerA, layerB, setSliceConst, sliceIdx, pyTrunc,
      FDTDState.Nn, npNorm, Except.map, except_bind_ok, Int.toNat_ofNat,
      List.eraseIdx, List.length_cons, List.length_nil]
  · norm_num [stateA, add_layer, baseState, layerA, setSliceConst, sliceIdx,
      pyTrunc, FDTDState.Nn]

/-- C10 witness: an integer position raises `TypeError`. -/
theorem c10_witness :
    ((∀ q, PyVal.pint 3 ≠ PyVal.pfloat q) ∧ (∀ l, PyVal.pint 3 ≠ PyVal.pseq l)) ∧
    add_probes baseState (.pint 3) = .error .typeError :=
  ⟨⟨fun _ h => (nomatch h), fun _ h => (nomatch h)⟩,
   c10_add_probes_type_error baseState (.pint 3)
     (fun _ h => (nomatch h)) (fun _ h => (nomatch h))⟩

end FDTDModel
